import Mathlib

/-!
Shallow embedding of `extract_codenet_split.py`: the ID loader
(`load_id_list`), the per-problem metadata indexer
(`build_submission_index`), path resolution (`resolve_source_path`), the
status-to-label mapping (`map_status_to_label`), the encoding-recovery
read, and the per-split extraction loop (`extract_split`), together with
proofs of the specified properties.

Python strings are modelled as Lean `String`, file bytes as `List Nat`,
and the on-disk corpus as explicit lookup functions.  Python's
`str.strip`, `str.upper`, `str.lower` are modelled over ASCII; `\d` in
the id pattern is modelled as an ASCII digit.
-/

namespace CodeNetExtract

/-- Python `str.strip()`: drop leading and trailing whitespace. -/
def pyStrip (s : String) : String :=
  String.mk (((s.toList.dropWhile Char.isWhitespace).reverse.dropWhile
    Char.isWhitespace).reverse)

/-- ASCII uppercase of one character (model of Python `str.upper`). -/
def asciiUpperChar (c : Char) : Char :=
  if 'a' ≤ c ∧ c ≤ 'z' then Char.ofNat (c.toNat - 32) else c

/-- ASCII lowercase of one character (model of Python `str.lower`). -/
def asciiLowerChar (c : Char) : Char :=
  if 'A' ≤ c ∧ c ≤ 'Z' then Char.ofNat (c.toNat + 32) else c

/-- Python `str.upper()` (ASCII model). -/
def pyUpper (s : String) : String := String.mk (s.toList.map asciiUpperChar)

/-- Python `str.lower()` (ASCII model). -/
def pyLower (s : String) : String := String.mk (s.toList.map asciiLowerChar)

/-- Python `a or b` on two optional strings: the left value when it is a
non-empty string (truthy), otherwise the right value. -/
def orElseStr (a b : Option String) : Option String :=
  match a with
  | some s => if s = "" then b else some s
  | none => b

/-- Python `needle in hay` substring containment. -/
def strContains (hay needle : String) : Bool :=
  hay.toList.tails.any (fun t => needle.toList.isPrefixOf t)

/-- `map_status_to_label` (source lines 76–96): empty status maps to
"unknown" (checked before any normalization); otherwise the trimmed,
uppercased status is looked up in the closed table, and any other value
maps to its own lowercased (trimmed) form. -/
def map_status_to_label (status : String) : String :=
  if status = "" then "unknown"
  else
    let s := pyUpper (pyStrip status)
    if s = "AC" then "no_error"
    else if s = "RE" then "runtime_error"
    else if s = "TLE" then "timeout"
    else if s = "MLE" then "memory_limit"
    else if s = "CE" then "compile_error"
    else if s = "WA" then "wrong_answer"
    else pyLower s

/-- Python's `$` anchor matches at the end of the string or just before
a single newline at the end of the string: drop that one final newline
before the anchored match. -/
def stripFinalNewline (cs : List Char) : List Char :=
  match cs.getLast? with
  | some c => if c = '\n' then cs.dropLast else cs
  | none => cs

/-- The regex `^(p\d{5})_s(\d+)$` (source line 18): on a match, return
the captured pair (`p` + 5 digits, `s` + the trailing digits).  `$`
tolerates one trailing newline (which the `(\d+)` capture excludes), so
the anchored body is matched against the token with one final newline
stripped. -/
def matchIdPat (s : String) : Option (String × String) :=
  match stripFinalNewline s.toList with
  | 'p' :: rest =>
    let d5 := rest.take 5
    if d5.length = 5 ∧ d5.all Char.isDigit then
      match rest.drop 5 with
      | '_' :: 's' :: ds =>
        if ds ≠ [] ∧ ds.all Char.isDigit then
          some (String.mk ('p' :: d5), String.mk ('s' :: ds))
        else none
      | _ => none
    else none
  | _ => none

/-- One entry of a split's id file: a JSON string token, a JSON object
(with its optional `problem_id` / `submission_id` fields; an absent field
is `none`), or any other JSON value. -/
inductive IdEntry where
  | str (s : String)
  | dict (problem_id : Option String) (submission_id : Option String)
  | other
deriving DecidableEq

/-- The per-entry branch of `load_id_list` (source lines 24–37). -/
def parseEntry : IdEntry → Except String (String × String)
  | .str s =>
    match matchIdPat s with
    | some pr => .ok pr
    | none => .error ("Unrecognized id format: " ++ s)
  | .dict pid sid =>
    match pid, sid with
    | some p, some s =>
      if p ≠ "" ∧ s ≠ "" then .ok (p, s)
      else .error "Dict id missing keys"
    | _, _ => .error "Dict id missing keys"
  | .other => .error "Unsupported id entry"

/-- `load_id_list` (source lines 20–38): parse the entries in order; the
first malformed entry raises (`ValueError`), discarding everything. -/
def load_id_list : List IdEntry → Except String (List (String × String))
  | [] => .ok []
  | e :: es =>
    match parseEntry e with
    | .error m => .error m
    | .ok pr =>
      match load_id_list es with
      | .error m => .error m
      | .ok prs => .ok (pr :: prs)

/-- One CSV row as read by `csv.DictReader`: attribute name to value;
`get` returns `none` for an absent column. -/
structure Row where
  attrs : List (String × String)
deriving DecidableEq

/-- Python `row.get(k)`. -/
def Row.get (r : Row) (k : String) : Option String :=
  (r.attrs.find? (fun p => p.1 = k)).map (fun p => p.2)

/-- The per-row body of `build_submission_index` (source lines 52–68):
key the row by `submission_id` or `id` (skipping rows with neither, or
with an empty value); strip the language and filename; when the stripped
filename is empty, derive `sid + ext` with ext ".py" if the language
contains "Python", ".c" if it contains "C" but not "C++", else ".cpp". -/
def rowEntry (row : Row) : Option (String × (String × String × Row)) :=
  match orElseStr (row.get "submission_id") (row.get "id") with
  | none => none
  | some sid =>
    if sid = "" then none
    else
      let language := pyStrip ((row.get "language").getD "")
      let filename0 := pyStrip ((row.get "filename").getD "")
      let filename :=
        if filename0 = "" then
          let ext :=
            if strContains language "Python" then ".py"
            else if strContains language "C" ∧ ¬ (strContains language "C++" = true) then ".c"
            else ".cpp"
          sid ++ ext
        else filename0
      some (sid, (language, filename, row))

/-- The empty submission index. -/
def emptyIndex : String → Option (String × String × Row) := fun _ => none

/-- `idx[sid] = v`: dict assignment, overwriting any earlier binding. -/
def insertIndex (idx : String → Option (String × String × Row)) (sid : String)
    (v : String × String × Row) : String → Option (String × String × Row) :=
  fun k => if k = sid then some v else idx k

/-- The dict built by the row loop of `build_submission_index`. -/
def indexOfRows (rows : List Row) : String → Option (String × String × Row) :=
  rows.foldl
    (fun idx row =>
      match rowEntry row with
      | none => idx
      | some (sid, v) => insertIndex idx sid v)
    emptyIndex

/-- A byte-for-byte file together with whether reading it succeeds
(permission / I/O); decoding never fails, only the read itself can. -/
structure FileEntry where
  bytes : List Nat
  readable : Bool
deriving DecidableEq

/-- The read-only corpus: per-problem metadata CSV rows (`none` when
`metadata/<pid>.csv` does not exist) and the data file tree keyed by
resolved path (`none` when the path does not exist on disk). -/
structure Corpus where
  metadataCsv : String → Option (List Row)
  files : List String → Option FileEntry

/-- `build_submission_index` (source lines 40–69): raise
`FileNotFoundError` when the metadata CSV is missing, else build the
submission index from its rows. -/
def build_submission_index (c : Corpus) (problem_id : String) :
    Except String (String → Option (String × String × Row)) :=
  match c.metadataCsv problem_id with
  | none => .error ("Missing metadata csv: " ++ problem_id)
  | some rows => .ok (indexOfRows rows)

/-- `resolve_source_path` (source lines 71–74): the deterministic join
`<root>/Project_CodeNet/data/<problem_id>/<language>/<filename>` (the
path is modelled relative to the corpus root; `submission_id` is unused,
as in the source). -/
def resolve_source_path (problem_id submission_id language filename : String) :
    List String :=
  ["Project_CodeNet", "data", problem_id, language, filename]

/-- Is a byte a UTF-8 continuation byte. -/
def isCont (b : Nat) : Bool := 0x80 ≤ b ∧ b ≤ 0xBF

/-- Lossy UTF-8 decoding (model of Python
`bytes.decode("utf-8", errors="ignore")`): well-formed sequences decode,
invalid bytes are dropped; total on every byte list.  The fuel argument
starts at the list length and only ever decreases slower than the list,
so it never runs out. -/
def decodeUtf8Aux : Nat → List Nat → List Char
  | 0, _ => []
  | _ + 1, [] => []
  | fuel + 1, b0 :: rest =>
    if b0 < 0x80 then Char.ofNat b0 :: decodeUtf8Aux fuel rest
    else if 0xC2 ≤ b0 ∧ b0 ≤ 0xDF then
      match rest with
      | b1 :: rest1 =>
        if isCont b1 then
          Char.ofNat ((b0 - 0xC0) * 0x40 + (b1 - 0x80)) :: decodeUtf8Aux fuel rest1
        else decodeUtf8Aux fuel rest
      | [] => []
    else if 0xE0 ≤ b0 ∧ b0 ≤ 0xEF then
      match rest with
      | b1 :: b2 :: rest2 =>
        if isCont b1 ∧ isCont b2 ∧ (b0 ≠ 0xE0 ∨ 0xA0 ≤ b1) ∧ (b0 ≠ 0xED ∨ b1 ≤ 0x9F) then
          Char.ofNat ((b0 - 0xE0) * 0x1000 + (b1 - 0x80) * 0x40 + (b2 - 0x80)) ::
            decodeUtf8Aux fuel rest2
        else decodeUtf8Aux fuel rest
      | _ => []
    else if 0xF0 ≤ b0 ∧ b0 ≤ 0xF4 then
      match rest with
      | b1 :: b2 :: b3 :: rest3 =>
        if isCont b1 ∧ isCont b2 ∧ isCont b3 ∧ (b0 ≠ 0xF0 ∨ 0x90 ≤ b1) ∧ (b0 ≠ 0xF4 ∨ b1 ≤ 0x8F) then
          Char.ofNat ((b0 - 0xF0) * 0x40000 + (b1 - 0x80) * 0x1000 +
              (b2 - 0x80) * 0x40 + (b3 - 0x80)) :: decodeUtf8Aux fuel rest3
        else decodeUtf8Aux fuel rest
      | _ => []
    else decodeUtf8Aux fuel rest

/-- Total lossy UTF-8 decode of a byte list to text. -/
def decodeUtf8Ignore (bytes : List Nat) : String :=
  String.mk (decodeUtf8Aux bytes.length bytes)

/-- Latin-1 decode (model of Python
`bytes.decode("latin-1", errors="ignore")`): every byte maps to the code
point of its value; total on every byte list. -/
def decodeLatin1 (bytes : List Nat) : String :=
  String.mk (bytes.map Char.ofNat)

/-- The only error a modelled file read can produce. -/
inductive ReadErr where
  | ioError
deriving DecidableEq

/-- `Path.read_text(encoding=..., errors="ignore")`: the read fails only
at the I/O level (unreadable file); decoding is lossy and total. -/
def read_text (decode : List Nat → String) (f : FileEntry) : Except ReadErr String :=
  if f.readable then .ok (decode f.bytes) else .error .ioError

/-- The two-tier read (source lines 141–144): try UTF-8 with lossy
decoding; on any exception retry with Latin-1 with lossy decoding, whose
own failure propagates to the caller. -/
def readCodeRobust (f : FileEntry) : Except ReadErr String :=
  match read_text decodeUtf8Ignore f with
  | .ok code => .ok code
  | .error _ => read_text decodeLatin1 f

/-- One emitted record (one JSON line of a split's output file). -/
structure Record where
  problem_id : String
  submission_id : String
  language : String
  filename : String
  status : String
  label : String
  code : String
deriving DecidableEq

/-- Per-split mutable state: records written in order, raw copies made
in order (destination path and bytes), and the three counters. -/
structure SplitState where
  records : List Record
  copies : List (List String × List Nat)
  count_written : Nat
  missing_meta : Nat
  missing_file : Nat
deriving DecidableEq

/-- The initial per-split state. -/
def initState : SplitState := ⟨[], [], 0, 0, 0⟩

/-- The fatal errors `extract_split` can raise: missing id file,
`ValueError` from the loader, or an I/O error on an existing file. -/
inductive FatalErr where
  | idFileNotFound (split : String)
  | formatError (msg : String)
  | ioError
deriving DecidableEq

/-- Outcome of processing one submission of a group. -/
inductive StepOutcome where
  | written (r : Record) (copy : Option (List String × List Nat))
  | skipMissingMeta
  | skipMissingFile
deriving DecidableEq

/-- The per-submission body of the inner loop of `extract_split` (source
lines 127–166): missing index row and missing file are skips; otherwise
read the code, derive status and label, build the record, and (when raw
copying is on) record the raw copy to `raw/<split>/<pid>/<language>/<filename>`. -/
def processSub (c : Corpus) (copyRaw : Bool) (split problem_id : String)
    (idx : String → Option (String × String × Row)) (sid : String) :
    Except FatalErr StepOutcome :=
  match idx sid with
  | none => .ok .skipMissingMeta
  | some (language, filename, meta) =>
    match c.files (resolve_source_path problem_id sid language filename) with
    | none => .ok .skipMissingFile
    | some f =>
      match readCodeRobust f with
      | .error _ => .error .ioError
      | .ok code =>
        let status := (orElseStr (meta.get "status") (meta.get "result")).getD ""
        let label := map_status_to_label status
        let r : Record := ⟨problem_id, sid, language, filename, status, label, code⟩
        let copy :=
          if copyRaw then
            some (["raw", split, problem_id, language, filename], f.bytes)
          else none
        .ok (.written r copy)

/-- Fold one step outcome into the split state (the writes and counter
increments of source lines 129–166). -/
def applyOutcome (st : SplitState) : StepOutcome → SplitState
  | .written r copy =>
    { st with
      records := st.records ++ [r]
      copies := st.copies ++ (match copy with | some cp => [cp] | none => [])
      count_written := st.count_written + 1 }
  | .skipMissingMeta => { st with missing_meta := st.missing_meta + 1 }
  | .skipMissingFile => { st with missing_file := st.missing_file + 1 }

/-- The inner loop of `extract_split` over one problem group's
submissions. -/
def processSubs (c : Corpus) (copyRaw : Bool) (split problem_id : String)
    (idx : String → Option (String × String × Row)) :
    List String → SplitState → Except FatalErr SplitState
  | [], st => .ok st
  | sid :: rest, st =>
    match processSub c copyRaw split problem_id idx sid with
    | .error e => .error e
    | .ok o => processSubs c copyRaw split problem_id idx rest (applyOutcome st o)

/-- One problem group (source lines 119–166): a missing metadata CSV
(`FileNotFoundError`) is caught, adds the group's size to
`missing_meta` and skips the group; otherwise the group's submissions
are processed against the freshly built index. -/
def processGroup (c : Corpus) (copyRaw : Bool) (split : String)
    (st : SplitState) (g : String × List String) : Except FatalErr SplitState :=
  match build_submission_index c g.1 with
  | .error _ => .ok { st with missing_meta := st.missing_meta + g.2.length }
  | .ok idx => processSubs c copyRaw split g.1 idx g.2 st

/-- The outer loop of `extract_split` over problem groups. -/
def processGroups (c : Corpus) (copyRaw : Bool) (split : String) :
    List (String × List String) → SplitState → Except FatalErr SplitState
  | [], st => .ok st
  | g :: gs, st =>
    match processGroup c copyRaw split st g with
    | .error e => .error e
    | .ok st' => processGroups c copyRaw split gs st'

/-- Grouping by problem (source lines 114–116):
`by_problem.setdefault(pid, []).append(sid)` — groups ordered by first
occurrence of the problem id, submissions kept in input order, with
duplicates preserved. -/
def groupByProblem (ids : List (String × String)) : List (String × List String) :=
  ids.foldl
    (fun acc pr =>
      if acc.any (fun g => g.1 = pr.1) then
        acc.map (fun g => if g.1 = pr.1 then (g.1, g.2 ++ [pr.2]) else g)
      else acc ++ [(pr.1, [pr.2])])
    []

/-- `extract_split` (source lines 98–172): missing id file raises;
the whole id list is loaded (fail-fast on a malformed entry) before any
group is processed; groups run in order against the fresh state. -/
def extract_split (c : Corpus) (copyRaw : Bool) (split_name : String)
    (idFile : Option (List IdEntry)) : Except FatalErr SplitState :=
  match idFile with
  | none => .error (.idFileNotFound split_name)
  | some entries =>
    match load_id_list entries with
    | .error m => .error (.formatError m)
    | .ok ids => processGroups c copyRaw split_name (groupByProblem ids) initState

/-- Lowercase hexadecimal digit. -/
def hexDigit (n : Nat) : Char :=
  if n < 10 then Char.ofNat (48 + n) else Char.ofNat (87 + n)

/-- JSON string escaping of one character (model of `json.dumps` with
`ensure_ascii=False`). -/
def escapeJsonChar (c : Char) : List Char :=
  if c = '"' then ['\\', '"']
  else if c = '\\' then ['\\', '\\']
  else if c = '\n' then ['\\', 'n']
  else if c = '\t' then ['\\', 't']
  else if c = '\r' then ['\\', 'r']
  else if c.toNat = 8 then ['\\', 'b']
  else if c.toNat = 12 then ['\\', 'f']
  else if c.toNat < 32 then ['\\', 'u', '0', '0', hexDigit (c.toNat / 16), hexDigit (c.toNat % 16)]
  else [c]

/-- A JSON string literal. -/
def jsonStr (s : String) : String :=
  "\"" ++ String.mk (s.toList.map escapeJsonChar).flatten ++ "\""

/-- One output line: `json.dumps(rec, ensure_ascii=False)` for the fixed
record shape of source lines 150–158. -/
def recordToLine (r : Record) : String :=
  "\x7b\"problem_id\": " ++ jsonStr r.problem_id ++
  ", \"submission_id\": " ++ jsonStr r.submission_id ++
  ", \"language\": " ++ jsonStr r.language ++
  ", \"filename\": " ++ jsonStr r.filename ++
  ", \"status\": " ++ jsonStr r.status ++
  ", \"label\": " ++ jsonStr r.label ++
  ", \"code\": " ++ jsonStr r.code ++ "\x7d"

/-- Observable on-disk result of one `extract_split` run: the lines of
the split's output file and the raw-copy tree. -/
structure RunOutput where
  outLines : List String
  rawTree : List String → Option (List Nat)

/-- Apply the raw copies in order to a tree; `shutil.copy2` overwrites
an existing destination. -/
def writeCopies (t : List String → Option (List Nat))
    (cs : List (List String × List Nat)) : List String → Option (List Nat) :=
  cs.foldl (fun t' cp => fun p => if p = cp.1 then some cp.2 else t' p) t

/-- One run of `extract_split` as a file-state transformer: the output
file is opened with mode "w" (source line 118), so its previous contents
are discarded; the raw copies overwrite their destinations in the
previous tree. -/
def runExtract (c : Corpus) (copyRaw : Bool) (split : String)
    (idFile : Option (List IdEntry)) (prevOut : List String)
    (prevRaw : List String → Option (List Nat)) : Except FatalErr RunOutput :=
  match extract_split c copyRaw split idFile with
  | .error e => .error e
  | .ok st => .ok ⟨st.records.map recordToLine, writeCopies prevRaw st.copies⟩

/-- Is an `Except` result an error. -/
def exceptIsError {ε α : Type} : Except ε α → Bool
  | .error _ => true
  | .ok _ => false

/-- Is an `extract_split` result a `ValueError` from the id loader. -/
def isFormatErrorResult : Except FatalErr SplitState → Bool
  | .error (.formatError _) => true
  | _ => false

/-- Modelled from the amended claim: the closed status table applied to
the normalized (trimmed, uppercased) status, other values mapping to
their lowercased normalized form. -/
def statusTableSpec (s : String) : String :=
  let u := pyUpper (pyStrip s)
  if u = "AC" then "no_error"
  else if u = "RE" then "runtime_error"
  else if u = "TLE" then "timeout"
  else if u = "MLE" then "memory_limit"
  else if u = "CE" then "compile_error"
  else if u = "WA" then "wrong_answer"
  else pyLower u

/-- Modelled from the amended claim: the filename-derivation rule —
trim the supplied filename; use it when non-empty, otherwise append the
extension guessed from the trimmed language label. -/
def deriveFilenameSpec (sid language filename : String) : String :=
  if pyStrip filename ≠ "" then pyStrip filename
  else
    let lang := pyStrip language
    sid ++
      (if strContains lang "Python" then ".py"
       else if strContains lang "C" ∧ ¬ (strContains lang "C++" = true) then ".c"
       else ".cpp")

/-- A malformed id entry in the shapes the spec enumerates: a string
token not matching the pattern, a dict lacking a (truthy) problem or
submission identifier, or any other entry shape. -/
def malformedShape (e : IdEntry) : Prop :=
  (∃ s, e = .str s ∧ matchIdPat s = none) ∨
  (∃ p q, e = .dict p q ∧ (p.getD "" = "" ∨ q.getD "" = "")) ∨
  e = .other

/-- The last copy of a list writing a given path, if any. -/
def lastWrite (cs : List (List String × List Nat)) (p : List String) :
    Option (List Nat) :=
  cs.foldl (fun acc cp => if p = cp.1 then some cp.2 else acc) none

/-!  ### Concrete fixtures used by the witnesses  -/

/-- The metadata row of the spec's end-to-end scenario. -/
def rowEx : Row :=
  ⟨[("submission_id", "s000000001"), ("language", "Python"),
    ("filename", "a.py"), ("status", "AC")]⟩

/-- The file `data/p00001/Python/a.py` with content "print(1)". -/
def fileEx : FileEntry := ⟨[112, 114, 105, 110, 116, 40, 49, 41], true⟩

/-- A one-problem, one-file corpus. -/
def corpusEx : Corpus :=
  ⟨fun p => if p = "p00001" then some [rowEx] else none,
   fun p =>
     if p = ["Project_CodeNet", "data", "p00001", "Python", "a.py"] then some fileEx
     else none⟩

/-- The record the scenario emits. -/
def recordEx : Record :=
  ⟨"p00001", "s000000001", "Python", "a.py", "AC", "no_error", "print(1)"⟩

/-- An empty raw-copy tree. -/
def emptyTree : List String → Option (List Nat) := fun _ => none

/-- The raw copy the scenario makes. -/
def copyEx : List String × List Nat :=
  (["raw", "train", "p00001", "Python", "a.py"], fileEx.bytes)

/-- The index built for `p00001` in the scenario. -/
def idxEx : String → Option (String × String × Row) := indexOfRows [rowEx]

/-- The split state after processing the scenario's id twice. -/
def stDupEx : SplitState := ⟨[recordEx, recordEx], [copyEx, copyEx], 2, 0, 0⟩

/-- Observable output of the scenario's first run. -/
def runOutEx : RunOutput :=
  ⟨[recordToLine recordEx], writeCopies emptyTree [copyEx]⟩

/-- Observable output of the scenario's second run over the first run's
on-disk state. -/
def runOutEx2 : RunOutput :=
  ⟨[recordToLine recordEx], writeCopies (writeCopies emptyTree [copyEx]) [copyEx]⟩

/-!  ### Claim theorems  -/

/-- C1 counterexample: a whitespace-only status is non-empty, so it
escapes the early "unknown" branch and, being empty after trimming,
maps to the empty string — not to "unknown" as the claim requires for a
status that is empty after trimming. -/
theorem map_status_whitespace_not_unknown :
    map_status_to_label " " = "" ∧ map_status_to_label " " ≠ "unknown" := by
  decide

/-- C1 (amended): the label mapping is a total pure function; a status
that is empty *before any normalization* maps to "unknown"; every other
(non-empty) status — including whitespace-only ones — maps through the
closed table applied to its trimmed, uppercased form, defaulting to its
lowercased trimmed form; in particular "ac" and "AC" map to "no_error"
and "XX" maps to "xx". -/
theorem map_status_amended_spec (status : String) :
    (status = "" → map_status_to_label status = "unknown") ∧
    (status ≠ "" → map_status_to_label status = statusTableSpec status) ∧
    map_status_to_label "ac" = "no_error" ∧
    map_status_to_label "AC" = "no_error" ∧
    map_status_to_label "XX" = "xx" := by
  refine ⟨fun h => ?_, fun h => ?_, by decide, by decide, by decide⟩
  · simp [map_status_to_label, h]
  · simp [map_status_to_label, statusTableSpec, h]

/-- C1 witness. -/
theorem map_status_amended_spec_witness :
    map_status_to_label "" = "unknown" ∧
    map_status_to_label " Wa " = statusTableSpec " Wa " :=
  ⟨(map_status_amended_spec "").1 rfl, (map_status_amended_spec " Wa ").2.1 (by decide)⟩

/-- The id regex accepts every token of the shaped form and returns the
two captures. -/
theorem matchIdPat_valid (d5 ds : List Char) (h5 : d5.length = 5)
    (hd5 : d5.all Char.isDigit) (hne : ds ≠ []) (hds : ds.all Char.isDigit) :
    matchIdPat (String.mk ('p' :: (d5 ++ '_' :: 's' :: ds))) =
      some (String.mk ('p' :: d5), String.mk ('s' :: ds)) := by
  have hlast : ('p' :: (d5 ++ '_' :: 's' :: ds)).getLast? = ds.getLast? := by
    have hsplit : 'p' :: (d5 ++ '_' :: 's' :: ds) = ('p' :: d5 ++ ['_', 's']) ++ ds := by
      simp
    rw [hsplit, List.getLast?_append_of_ne_nil _ hne]
  have hgl : ds.getLast? = some (ds.getLast hne) :=
    List.getLast?_eq_getLast_of_ne_nil hne
  have hdig : (ds.getLast hne).isDigit = true :=
    List.all_eq_true.mp hds _ (List.getLast_mem hne)
  have hnn : ¬ (ds.getLast hne = '\n') := by
    intro hc; rw [hc] at hdig; exact absurd hdig (by decide)
  have hstrip : stripFinalNewline ('p' :: (d5 ++ '_' :: 's' :: ds)) =
      'p' :: (d5 ++ '_' :: 's' :: ds) := by
    unfold stripFinalNewline
    rw [hlast, hgl]
    simp [hnn]
  have ht : (d5 ++ '_' :: 's' :: ds).take 5 = d5 := by
    rw [← h5]; exact List.take_left _ _
  have hd : (d5 ++ '_' :: 's' :: ds).drop 5 = '_' :: 's' :: ds := by
    rw [← h5]; exact List.drop_left _ _
  unfold matchIdPat
  rw [show (String.mk ('p' :: (d5 ++ '_' :: 's' :: ds))).toList =
        'p' :: (d5 ++ '_' :: 's' :: ds) from rfl,
    hstrip]
  simp [ht, hd, h5, hd5, hne, hds]

/-- Fidelity of the `$` anchor: a token carrying one trailing newline is
accepted by the program's regex (`$` matches just before it, and the
`(\d+)` capture excludes it), so the loader yields the pair and raises
nothing. -/
theorem matchIdPat_trailing_newline :
    matchIdPat "p00023_s1\n" = some ("p00023", "s1") ∧
    load_id_list [.str "p00023_s1\n"] = .ok [("p00023", "s1")] ∧
    matchIdPat "p00023_s1\n\n" = none :=
  ⟨rfl, rfl, rfl⟩

/-- C2: every string token of the form `p` + 5 digits + `_s` + digits is
decomposed by the loader into exactly (problem_id = the `p`+5digits
prefix, submission_id = `s` + the trailing digits). -/
theorem loader_valid_token_yields_pair (d5 ds : List Char) (h5 : d5.length = 5)
    (hd5 : d5.all Char.isDigit) (hne : ds ≠ []) (hds : ds.all Char.isDigit) :
    parseEntry (.str (String.mk ('p' :: (d5 ++ '_' :: 's' :: ds)))) =
      .ok (String.mk ('p' :: d5), String.mk ('s' :: ds)) ∧
    load_id_list [.str (String.mk ('p' :: (d5 ++ '_' :: 's' :: ds)))] =
      .ok [(String.mk ('p' :: d5), String.mk ('s' :: ds))] := by
  have h := matchIdPat_valid d5 ds h5 hd5 hne hds
  constructor
  · simp [parseEntry, h]
  · simp [load_id_list, parseEntry, h]

/-- C2 witness. -/
theorem loader_valid_token_yields_pair_witness :
    parseEntry (.str "p00023_s006384060") = .ok ("p00023", "s006384060") ∧
    load_id_list [.str "p00023_s006384060"] = .ok [("p00023", "s006384060")] :=
  loader_valid_token_yields_pair
    ['0', '0', '0', '2', '3'] ['0', '0', '6', '3', '8', '4', '0', '6', '0']
    (by decide) (by decide) (by decide) (by decide)

/-- Each malformed shape makes `parseEntry` raise. -/
theorem parseEntry_malformed (e : IdEntry) (h : malformedShape e) :
    exceptIsError (parseEntry e) = true := by
  rcases h with ⟨s, rfl, hm⟩ | ⟨p, q, rfl, hpq⟩ | rfl
  · simp [parseEntry, hm, exceptIsError]
  · cases p with
    | none => simp [parseEntry, exceptIsError]
    | some pv =>
      cases q with
      | none => simp [parseEntry, exceptIsError]
      | some qv =>
        simp only [Option.getD_some] at hpq
        have : ¬ (pv ≠ "" ∧ qv ≠ "") := by
          rcases hpq with h1 | h1 <;> simp [h1]
        simp [parseEntry, this, exceptIsError]
  · simp [parseEntry, exceptIsError]

/-- A raising entry anywhere in the list makes the loader raise. -/
theorem load_id_list_error (es : List IdEntry) (e : IdEntry) (he : e ∈ es)
    (hm : exceptIsError (parseEntry e) = true) :
    exceptIsError (load_id_list es) = true := by
  induction es with
  | nil => cases he
  | cons a as ih =>
    rcases List.mem_cons.mp he with rfl | he'
    · cases hp : parseEntry e with
      | error m => simp [load_id_list, hp, exceptIsError]
      | ok pr => rw [hp] at hm; simp [exceptIsError] at hm
    · cases hp : parseEntry a with
      | error m => simp [load_id_list, hp, exceptIsError]
      | ok pr =>
        have := ih he'
        cases hl : load_id_list as with
        | error m => simp [load_id_list, hp, hl, exceptIsError]
        | ok prs => rw [hl] at this; simp [exceptIsError] at this

/-- C3: a single malformed entry (non-matching token, dict without a
non-empty problem or submission id, or any other shape) makes the id
loader raise, and `extract_split` on that id file fails with the
loader's `ValueError` before any group is processed: no record is
emitted for the split. -/
theorem loader_malformed_fail_fast (c : Corpus) (copyRaw : Bool) (split : String)
    (es : List IdEntry) (e : IdEntry) (he : e ∈ es) (h : malformedShape e) :
    exceptIsError (load_id_list es) = true ∧
    isFormatErrorResult (extract_split c copyRaw split (some es)) = true ∧
    ∀ st, extract_split c copyRaw split (some es) ≠ .ok st := by
  have h1 := load_id_list_error es e he (parseEntry_malformed e h)
  cases hl : load_id_list es with
  | error m =>
    refine ⟨by simp [hl, exceptIsError], ?_, ?_⟩
    · simp [extract_split, hl, isFormatErrorResult]
    · intro st; simp [extract_split, hl]
  | ok prs => rw [hl] at h1; simp [exceptIsError] at h1

/-- C3 witness: an id list with one well-formed and one malformed token
(four digits instead of five) aborts the whole split. -/
theorem loader_malformed_fail_fast_witness :
    exceptIsError (load_id_list [.str "p00023_s006384060", .str "p0001_s1"]) = true ∧
    isFormatErrorResult
      (extract_split ⟨fun _ => none, fun _ => none⟩ true "train"
        (some [.str "p00023_s006384060", .str "p0001_s1"])) = true ∧
    ∀ st, extract_split ⟨fun _ => none, fun _ => none⟩ true "train"
        (some [.str "p00023_s006384060", .str "p0001_s1"]) ≠ .ok st :=
  loader_malformed_fail_fast ⟨fun _ => none, fun _ => none⟩ true "train"
    [.str "p00023_s006384060", .str "p0001_s1"] (.str "p0001_s1")
    (by simp) (Or.inl ⟨"p0001_s1", rfl, by decide⟩)

/-- The step function of the index-building row loop. -/
theorem indexOfRows_append (rows : List Row) (r : Row) :
    indexOfRows (rows ++ [r]) =
      (match rowEntry r with
       | none => indexOfRows rows
       | some (sid, v) => insertIndex (indexOfRows rows) sid v) := by
  simp [indexOfRows, List.foldl_append]

/-- Rows that do not key `sid` leave the index at `sid` unchanged. -/
theorem indexOfRows_untouched (l : List Row) (sid : String)
    (hl : ∀ r' ∈ l, ∀ v', rowEntry r' ≠ some (sid, v'))
    (idx : String → Option (String × String × Row)) :
    (l.foldl
      (fun idx row =>
        match rowEntry row with
        | none => idx
        | some (s, v) => insertIndex idx s v) idx) sid = idx sid := by
  induction l generalizing idx with
  | nil => rfl
  | cons a as ih =>
    have ha := hl a (List.mem_cons_self a as)
    have hrest : ∀ r' ∈ as, ∀ v', rowEntry r' ≠ some (sid, v') :=
      fun r' hr' => hl r' (List.mem_cons_of_mem a hr')
    cases he : rowEntry a with
    | none => simpa [List.foldl_cons, he] using ih hrest idx
    | some p =>
      obtain ⟨k, v⟩ := p
      have hk : k ≠ sid := by
        intro hkk; exact ha v (by rw [he, hkk])
      have := ih hrest (insertIndex idx k v)
      simpa [List.foldl_cons, he, insertIndex, hk, Ne.symm hk] using this

/-- C10: when several rows of the metadata table carry the same
submission id, the built index maps that id to the triple derived from
the *last* such row; earlier duplicates are silently overwritten. -/
theorem index_last_duplicate_row_wins (c : Corpus) (problem_id : String)
    (l₁ l₂ : List Row) (r : Row) (sid : String) (v : String × String × Row)
    (hcsv : c.metadataCsv problem_id = some (l₁ ++ r :: l₂))
    (hr : rowEntry r = some (sid, v))
    (hl₂ : ∀ r' ∈ l₂, ∀ v', rowEntry r' ≠ some (sid, v')) :
    build_submission_index c problem_id = .ok (indexOfRows (l₁ ++ r :: l₂)) ∧
    indexOfRows (l₁ ++ r :: l₂) sid = some v := by
  refine ⟨by simp [build_submission_index, hcsv], ?_⟩
  have : indexOfRows (l₁ ++ r :: l₂) =
      l₂.foldl
        (fun idx row =>
          match rowEntry row with
          | none => idx
          | some (s, v') => insertIndex idx s v')
        (insertIndex (indexOfRows l₁) sid v) := by
    simp [indexOfRows, List.foldl_append, List.foldl_cons, hr]
  rw [this, indexOfRows_untouched l₂ sid hl₂]
  simp [insertIndex]

/-- C10 witness: two rows keyed `s1`, languages "C" then "Python"; the
index holds the second row's derivation. -/
theorem index_last_duplicate_row_wins_witness :
    build_submission_index
        ⟨fun p => if p = "p00001" then
            some [⟨[("submission_id", "s1"), ("language", "C"), ("filename", "a.c")]⟩,
                  ⟨[("submission_id", "s1"), ("language", "Python"), ("filename", "b.py")]⟩]
          else none, fun _ => none⟩ "p00001" =
      .ok (indexOfRows
            [⟨[("submission_id", "s1"), ("language", "C"), ("filename", "a.c")]⟩,
             ⟨[("submission_id", "s1"), ("language", "Python"), ("filename", "b.py")]⟩]) ∧
    indexOfRows
        [⟨[("submission_id", "s1"), ("language", "C"), ("filename", "a.c")]⟩,
         ⟨[("submission_id", "s1"), ("language", "Python"), ("filename", "b.py")]⟩] "s1" =
      some ("Python", "b.py", ⟨[("submission_id", "s1"), ("language", "Python"), ("filename", "b.py")]⟩) :=
  index_last_duplicate_row_wins
    ⟨fun p => if p = "p00001" then
        some [⟨[("submission_id", "s1"), ("language", "C"), ("filename", "a.c")]⟩,
              ⟨[("submission_id", "s1"), ("language", "Python"), ("filename", "b.py")]⟩]
      else none, fun _ => none⟩ "p00001"
    [⟨[("submission_id", "s1"), ("language", "C"), ("filename", "a.c")]⟩] []
    ⟨[("submission_id", "s1"), ("language", "Python"), ("filename", "b.py")]⟩
    "s1" ("Python", "b.py", ⟨[("submission_id", "s1"), ("language", "Python"), ("filename", "b.py")]⟩)
    rfl (by decide) (fun r' hr' => absurd hr' (List.not_mem_nil r'))

/-- C4: when the per-problem metadata CSV is missing, the
`FileNotFoundError` raised by `build_submission_index` is caught by the
caller: the whole group is skipped with `missing_meta` incremented by
the group's size, no record or copy is added, and the remaining groups
of the split are still processed from the resulting state. -/
theorem missing_metadata_table_skips_group (c : Corpus) (copyRaw : Bool)
    (split pid : String) (sids : List String) (gs : List (String × List String))
    (st : SplitState) (hm : c.metadataCsv pid = none) :
    exceptIsError (build_submission_index c pid) = true ∧
    processGroups c copyRaw split ((pid, sids) :: gs) st =
      processGroups c copyRaw split gs
        { st with missing_meta := st.missing_meta + sids.length } := by
  constructor
  · simp [build_submission_index, hm, exceptIsError]
  · simp [processGroups, processGroup, build_submission_index, hm]

/-- C4 witness: a corpus with no metadata at all; a two-submission group
is skipped whole and the next group is still reached. -/
theorem missing_metadata_table_skips_group_witness :
    exceptIsError (build_submission_index ⟨fun _ => none, fun _ => none⟩ "p99999") = true ∧
    processGroups ⟨fun _ => none, fun _ => none⟩ true "train"
        [("p99999", ["s1", "s2"]), ("p88888", ["s3"])] initState =
      processGroups ⟨fun _ => none, fun _ => none⟩ true "train"
        [("p88888", ["s3"])] ⟨[], [], 0, 0 + 2, 0⟩ :=
  missing_metadata_table_skips_group ⟨fun _ => none, fun _ => none⟩ true "train"
    "p99999" ["s1", "s2"] [("p88888", ["s3"])] initState rfl

/-- C5: a submission present in the index whose resolved source path
does not exist on disk is skipped: `missing_file` goes up by exactly 1,
no record and no raw copy are added, and processing continues with the
remaining submissions of the group. -/
theorem missing_file_skips_submission (c : Corpus) (copyRaw : Bool)
    (split pid sid : String) (idx : String → Option (String × String × Row))
    (language filename : String) (meta : Row) (rest : List String)
    (st : SplitState) (hidx : idx sid = some (language, filename, meta))
    (hfile : c.files (resolve_source_path pid sid language filename) = none) :
    processSubs c copyRaw split pid idx (sid :: rest) st =
      processSubs c copyRaw split pid idx rest
        { st with missing_file := st.missing_file + 1 } := by
  simp [processSubs, processSub, hidx, hfile, applyOutcome]

/-- C5 witness: one indexed submission whose file is absent, followed by
none; the state gains exactly one `missing_file`. -/
theorem missing_file_skips_submission_witness :
    processSubs ⟨fun _ => none, fun _ => none⟩ true "train" "p00001"
        (fun k => if k = "s1" then some ("Python", "a.py", ⟨[("submission_id", "s1")]⟩) else none)
        ["s1"] initState =
      processSubs ⟨fun _ => none, fun _ => none⟩ true "train" "p00001"
        (fun k => if k = "s1" then some ("Python", "a.py", ⟨[("submission_id", "s1")]⟩) else none)
        [] ⟨[], [], 0, 0, 0 + 1⟩ :=
  missing_file_skips_submission ⟨fun _ => none, fun _ => none⟩ true "train"
    "p00001" "s1"
    (fun k => if k = "s1" then some ("Python", "a.py", ⟨[("submission_id", "s1")]⟩) else none)
    "Python" "a.py" ⟨[("submission_id", "s1")]⟩ [] initState rfl rfl

/-- C6 counterexample: a row whose filename field is the non-empty
string "␣␣" (two spaces) with language "C++" is *not* used verbatim —
the stripped value is empty, so the fallback derives "s1.cpp". -/
theorem filename_not_verbatim :
    (Row.get ⟨[("submission_id", "s1"), ("language", "C++"), ("filename", "  ")]⟩ "filename"
      = some "  ") ∧
    ("  " : String) ≠ "" ∧
    rowEntry ⟨[("submission_id", "s1"), ("language", "C++"), ("filename", "  ")]⟩ =
      some ("s1", ("C++", "s1.cpp", ⟨[("submission_id", "s1"), ("language", "C++"), ("filename", "  ")]⟩)) ∧
    ("s1.cpp" : String) ≠ "  " := by
  decide

/-- C6 (amended): the supplied filename and language are first stripped
of surrounding whitespace; a filename that is non-empty *after
stripping* is used in that stripped form, and one that is empty after
stripping is derived as submission_id plus the guessed extension (".py"
if the stripped language contains "Python", ".c" if it contains "C" but
not "C++", otherwise ".cpp"). -/
theorem filename_derivation_amended (row : Row) (sid : String)
    (v : String × String × Row) (h : rowEntry row = some (sid, v)) :
    v.2.1 = deriveFilenameSpec sid ((row.get "language").getD "")
      ((row.get "filename").getD "") ∧
    v.1 = pyStrip ((row.get "language").getD "") ∧
    v.2.2 = row := by
  unfold rowEntry at h
  cases ho : orElseStr (row.get "submission_id") (row.get "id") with
  | none => rw [ho] at h; cases h
  | some sid' =>
    rw [ho] at h
    by_cases hs : sid' = ""
    · simp [hs] at h
    · simp only [hs, if_false] at h
      injection h with hv
      rw [Prod.mk.injEq] at hv
      obtain ⟨hsid, hv2⟩ := hv
      subst hsid
      subst hv2
      refine ⟨?_, rfl, rfl⟩
      simp only [deriveFilenameSpec]
      by_cases hf : pyStrip ((row.get "filename").getD "") = "" <;>
        simp [hf]

/-- C6 witness: empty filename with language "C++" derives
"s7.cpp" = submission_id + ".cpp". -/
theorem filename_derivation_amended_witness :
    ("C++", "s7.cpp",
        (⟨[("submission_id", "s7"), ("language", "C++"), ("filename", "")]⟩ : Row)).2.1 =
      deriveFilenameSpec "s7"
        ((Row.get ⟨[("submission_id", "s7"), ("language", "C++"), ("filename", "")]⟩ "language").getD "")
        ((Row.get ⟨[("submission_id", "s7"), ("language", "C++"), ("filename", "")]⟩ "filename").getD "") ∧
    ("C++", "s7.cpp",
        (⟨[("submission_id", "s7"), ("language", "C++"), ("filename", "")]⟩ : Row)).1 =
      pyStrip ((Row.get ⟨[("submission_id", "s7"), ("language", "C++"), ("filename", "")]⟩ "language").getD "") ∧
    ("C++", "s7.cpp",
        (⟨[("submission_id", "s7"), ("language", "C++"), ("filename", "")]⟩ : Row)).2.2 =
      (⟨[("submission_id", "s7"), ("language", "C++"), ("filename", "")]⟩ : Row) :=
  filename_derivation_amended
    ⟨[("submission_id", "s7"), ("language", "C++"), ("filename", "")]⟩ "s7"
    ("C++", "s7.cpp", ⟨[("submission_id", "s7"), ("language", "C++"), ("filename", "")]⟩)
    (by decide)

/-- C7: the two-tier encoding-recovery read never raises for a readable
file — the lossy UTF-8 decode is total, so the first tier already
returns — while an I/O failure on the file (unreadable despite
existing) makes both tiers fail and the error propagate. -/
theorem read_code_robust_two_tier (f : FileEntry) :
    (f.readable = true → readCodeRobust f = .ok (decodeUtf8Ignore f.bytes)) ∧
    (f.readable = false →
      read_text decodeUtf8Ignore f = .error .ioError ∧
      readCodeRobust f = read_text decodeLatin1 f ∧
      readCodeRobust f = .error .ioError) := by
  constructor
  · intro h; simp [readCodeRobust, read_text, h]
  · intro h; refine ⟨by simp [read_text, h], ?_, ?_⟩ <;>
      simp [readCodeRobust, read_text, h]

/-- C7 witness: a readable file with an invalid UTF-8 byte decodes
lossily to "hi" without raising; an unreadable file propagates the
I/O error. -/
theorem read_code_robust_two_tier_witness :
    readCodeRobust ⟨[104, 255, 105], true⟩ = .ok "hi" ∧
    readCodeRobust ⟨[104], false⟩ = .error .ioError :=
  ⟨(read_code_robust_two_tier ⟨[104, 255, 105], true⟩).1 rfl,
   ((read_code_robust_two_tier ⟨[104], false⟩).2 rfl).2.2⟩

/-- A record written by `processSub` carries the processed submission
id in its `submission_id` field. -/
theorem processSub_submission_id (c : Corpus) (copyRaw : Bool)
    (split pid : String) (idx : String → Option (String × String × Row))
    (sid : String) (r : Record) (copy : Option (List String × List Nat))
    (h : processSub c copyRaw split pid idx sid = .ok (.written r copy)) :
    r.submission_id = sid := by
  unfold processSub at h
  split at h
  · simp at h
  · split at h
    · simp at h
    · split at h
      · simp at h
      · simp only [Except.ok.injEq, StepOutcome.written.injEq] at h
        rw [← h.1]

/-- C9: no deduplication — within one problem group, a submission id
that resolves to a written record contributes one record per occurrence
in the group's id list: the number of records carrying that
submission id grows by exactly the number of occurrences. -/
theorem duplicate_ids_duplicate_records (c : Corpus) (copyRaw : Bool)
    (split pid : String) (idx : String → Option (String × String × Row))
    (sids : List String) (st st' : SplitState) (sid : String) (r : Record)
    (copy : Option (List String × List Nat))
    (hw : processSub c copyRaw split pid idx sid = .ok (.written r copy))
    (hrun : processSubs c copyRaw split pid idx sids st = .ok st') :
    (st'.records.filter (fun x => x.submission_id = sid)).length =
      (st.records.filter (fun x => x.submission_id = sid)).length +
        sids.count sid := by
  induction sids generalizing st with
  | nil =>
    simp only [processSubs, Except.ok.injEq] at hrun
    subst hrun
    simp
  | cons a rest ih =>
    simp only [processSubs] at hrun
    cases hsub : processSub c copyRaw split pid idx a with
    | error e => rw [hsub] at hrun; cases hrun
    | ok o =>
      rw [hsub] at hrun
      have hmain := ih (applyOutcome st o) hrun
      rw [hmain, List.count_cons]
      by_cases ha : a = sid
      · subst ha
        rw [hw] at hsub
        have ho : StepOutcome.written r copy = o := by
          simpa using hsub
        subst ho
        have hr : r.submission_id = a := processSub_submission_id _ _ _ _ _ _ _ _ hw
        simp [applyOutcome, List.filter_append, hr]
        omega
      · cases o with
        | written r' copy' =>
          have hr' : r'.submission_id = a := processSub_submission_id _ _ _ _ _ _ _ _ hsub
          have hne : ¬ (r'.submission_id = sid) := by rw [hr']; exact ha
          simp [applyOutcome, List.filter_append, hne, ha, Ne.symm ha]
        | skipMissingMeta => simp [applyOutcome, ha, Ne.symm ha]
        | skipMissingFile => simp [applyOutcome, ha, Ne.symm ha]

/-- C9 witness: the scenario's id listed twice yields two copies of the
same record. -/
theorem duplicate_ids_duplicate_records_witness :
    (stDupEx.records.filter (fun x => x.submission_id = "s000000001")).length =
      (initState.records.filter (fun x => x.submission_id = "s000000001")).length +
        (["s000000001", "s000000001"].count "s000000001") :=
  duplicate_ids_duplicate_records corpusEx true "train" "p00001" idxEx
    ["s000000001", "s000000001"] initState stDupEx "s000000001" recordEx
    (some copyEx) rfl rfl

/-- Appending one copy to a copy list writes that path last. -/
theorem writeCopies_append (t : List String → Option (List Nat))
    (cs : List (List String × List Nat)) (cp : List String × List Nat) :
    writeCopies t (cs ++ [cp]) =
      fun p => if p = cp.1 then some cp.2 else writeCopies t cs p := by
  simp [writeCopies, List.foldl_append]

/-- Appending one copy to a copy list updates the last write of its
path. -/
theorem lastWrite_append (cs : List (List String × List Nat))
    (cp : List String × List Nat) (p : List String) :
    lastWrite (cs ++ [cp]) p =
      if p = cp.1 then some cp.2 else lastWrite cs p := by
  simp [lastWrite, List.foldl_append]

/-- A copy tree is the previous tree overridden by the last write of
each path. -/
theorem writeCopies_eq_lastWrite (t : List String → Option (List Nat))
    (cs : List (List String × List Nat)) (p : List String) :
    writeCopies t cs p =
      (match lastWrite cs p with
       | some b => some b
       | none => t p) := by
  induction cs using List.reverseRecOn with
  | nil => rfl
  | append_singleton cs cp ih =>
    rw [writeCopies_append, lastWrite_append]
    by_cases hp : p = cp.1 <;> simp [hp, ih]

/-- Re-applying the same copies to the resulting tree changes no
path. -/
theorem writeCopies_idem (t : List String → Option (List Nat))
    (cs : List (List String × List Nat)) (p : List String) :
    writeCopies (writeCopies t cs) cs p = writeCopies t cs p := by
  cases hl : lastWrite cs p with
  | some b => simp [writeCopies_eq_lastWrite, hl]
  | none => rw [writeCopies_eq_lastWrite (writeCopies t cs), hl]

/-- C8: extraction is deterministic and idempotent — a second run over
the unchanged corpus, starting from the on-disk state the first run
left (the output file is rewritten, not appended, since it is opened
with mode "w"), produces the same output lines byte for byte and a raw
tree identical at every path. -/
theorem extract_run_idempotent (c : Corpus) (copyRaw : Bool) (split : String)
    (idFile : Option (List IdEntry)) (prevOut : List String)
    (prevRaw : List String → Option (List Nat)) (o₁ o₂ : RunOutput)
    (h₁ : runExtract c copyRaw split idFile prevOut prevRaw = .ok o₁)
    (h₂ : runExtract c copyRaw split idFile o₁.outLines o₁.rawTree = .ok o₂) :
    o₂.outLines = o₁.outLines ∧ ∀ p, o₂.rawTree p = o₁.rawTree p := by
  unfold runExtract at h₁ h₂
  cases hex : extract_split c copyRaw split idFile with
  | error e => rw [hex] at h₁; cases h₁
  | ok st =>
    rw [hex] at h₁ h₂
    injection h₁ with h₁
    subst h₁
    injection h₂ with h₂
    subst h₂
    exact ⟨rfl, fun p => writeCopies_idem prevRaw st.copies p⟩

/-- C8 witness: running the end-to-end scenario twice, the second run
over the first run's on-disk state, leaves the output line and the
copied file unchanged. -/
theorem extract_run_idempotent_witness :
    runOutEx2.outLines = runOutEx.outLines ∧
    runOutEx2.rawTree ["raw", "train", "p00001", "Python", "a.py"] =
      runOutEx.rawTree ["raw", "train", "p00001", "Python", "a.py"] :=
  ⟨(extract_run_idempotent corpusEx true "train" (some [.str "p00001_s000000001"])
      [] emptyTree runOutEx runOutEx2 rfl rfl).1,
   (extract_run_idempotent corpusEx true "train" (some [.str "p00001_s000000001"])
      [] emptyTree runOutEx runOutEx2 rfl rfl).2
     ["raw", "train", "p00001", "Python", "a.py"]⟩

end CodeNetExtract
